import Mathlib

/-!
Verification of the graphics core of the ggez 2D game framework.

The development shallowly embeds the graphics context of
`src/graphics/mod.rs` (matrix stacks, projection handling, the sampler
cache, image construction and the `Drawable` implementation for images),
the canvas extraction and flip logic of `src/graphics/canvas.rs`, and the
bind-group cache of `src/graphics/gpu/bind_group.rs`.

Machine floats (`f32`) are modelled exactly by `ℚ`; GPU handles (textures,
samplers, bind groups) are modelled as natural numbers handed out by a
creation counter, so that distinct creation calls yield distinct handles.
Fallible operations return `Except GameError`.  Parts of the repository
that are referenced but whose defining file is not among the sources
(`types.rs`, `pixelshader.rs`, `Image::to_rgba8`, `flip_pixel_data`,
`DrawParam::transform`) are modelled from the specification and are marked
as such in their doc comments.
-/

set_option autoImplicit false

namespace Ggez

/-- Homogeneous 4x4 matrix over `ℚ`, standing in for the `f32`-based
`Matrix4` (`[[f32; 4]; 4]`) used by the graphics context.  `entry i j` is
the element in row `i`, column `j`; translations live in column 3, as in
nalgebra's homogeneous convention. -/
structure Mat4 where
  entry : Fin 4 → Fin 4 → ℚ

/-- Builds a matrix from its four rows. -/
def Mat4.ofRows (r0 r1 r2 r3 : Fin 4 → ℚ) : Mat4 :=
  ⟨![r0, r1, r2, r3]⟩

/-- Row-into-column matrix product, the `Matrix4` multiplication of the
source. -/
def Mat4.mul (a b : Mat4) : Mat4 :=
  ⟨fun i j => a.entry i 0 * b.entry 0 j + a.entry i 1 * b.entry 1 j
    + a.entry i 2 * b.entry 2 j + a.entry i 3 * b.entry 3 j⟩

/-- The identity matrix, `Matrix4::identity()`. -/
def Mat4.identity : Mat4 :=
  Mat4.ofRows ![1, 0, 0, 0] ![0, 1, 0, 0] ![0, 0, 1, 0] ![0, 0, 0, 1]

theorem Mat4.entry_injective : ∀ {a b : Mat4}, a.entry = b.entry → a = b
  | ⟨_⟩, ⟨_⟩, rfl => rfl

instance : DecidableEq Mat4 := fun a b =>
  if h : a.entry = b.entry then .isTrue (Mat4.entry_injective h)
  else .isFalse (fun hc => h (by rw [hc]))

/-- Modelled from the spec (the geometry/color module `types.rs` is not
among the sources): a rectangle with position `x`, `y` and extent `w`,
`h`, as used for screen coordinates and for fractional `src` regions. -/
structure Rect where
  x : ℚ
  y : ℚ
  w : ℚ
  h : ℚ
deriving DecidableEq

/-- Modelled from the spec (`types.rs` is not among the sources): a color
of four normalized channels, not clamped on construction. -/
structure Color where
  r : ℚ
  g : ℚ
  b : ℚ
  a : ℚ
deriving DecidableEq

/-- nalgebra's `Matrix4::new_orthographic(left, right, bottom, top, znear,
zfar)`: the orthographic projection mapping the given box onto the unit
cube.  This is an external library function, embedded here by its
documented formula. -/
def new_orthographic (left right bottom top znear zfar : ℚ) : Mat4 :=
  Mat4.ofRows
    ![2 / (right - left), 0, 0, -(right + left) / (right - left)]
    ![0, 2 / (top - bottom), 0, -(top + bottom) / (top - bottom)]
    ![0, 0, -2 / (zfar - znear), -(zfar + znear) / (zfar - znear)]
    ![0, 0, 0, 1]

/-- The homogeneous matrix of a non-uniform scaling by `(sx, sy, sz)`. -/
def nonuniform_scaling (sx sy sz : ℚ) : Mat4 :=
  Mat4.ofRows ![sx, 0, 0, 0] ![0, sy, 0, 0] ![0, 0, sz, 0] ![0, 0, 0, 1]

/-- nalgebra's `append_nonuniform_scaling`: the transformation equal to
`m` followed by the scaling, i.e. the scaling matrix times `m`. -/
def Mat4.append_nonuniform_scaling (m : Mat4) (sx sy sz : ℚ) : Mat4 :=
  (nonuniform_scaling sx sy sz).mul m

/-- gfx's `texture::FilterMethod` variants, the filter half of a sampler
descriptor. -/
inductive FilterMethod where
  | scale
  | mipmap
  | bilinear
  | trilinear
  | anisotropic (max : Nat)
deriving DecidableEq

/-- gfx's `texture::WrapMode` variants, the wrap half of a sampler
descriptor. -/
inductive WrapMode where
  | tile
  | mirror
  | clamp
  | border
deriving DecidableEq

/-- The sampler descriptor built by `texture::SamplerInfo::new(filter,
wrap)`: per the spec the sampler cache is "keyed by filter/wrap settings",
so the descriptor is the pair of a filter method and a wrap mode (the
source applies the same wrap mode to all three axes). -/
structure SamplerInfo where
  filter : FilterMethod
  wrap_mode : WrapMode
deriving DecidableEq

/-- `texture::SamplerInfo::new`. -/
def SamplerInfo.new (filter : FilterMethod) (wrap : WrapMode) : SamplerInfo :=
  ⟨filter, wrap⟩

/-- GPU handles (samplers, texture views, bind groups, ...) are opaque
objects handed out by the device; we model a handle as the index of the
creation call that produced it, so distinct creation calls yield distinct
handles. -/
abbrev Handle := Nat

/-- Association-list model of `HashMap` lookup: the map is the list of its
entries, and `alistFind` returns the value of the first entry with the
given key (keys are inserted at most once below, so the entry is unique). -/
def alistFind {K V : Type} [DecidableEq K] : List (K × V) → K → Option V
  | [], _ => none
  | (k, v) :: rest, key => if k = key then some v else alistFind rest key

/-- `HashMap::entry(key).or_insert_with(fresh)` followed by `.clone()`.
`σ` is the state of the creating device or factory and `fresh` its
creation call.  Returns the value, the updated map, and the updated
creator state; the creator is invoked exactly when the key was absent. -/
def getOrCreate {K V σ : Type} [DecidableEq K] (m : List (K × V)) (key : K)
    (fresh : σ → V × σ) (st : σ) : V × List (K × V) × σ :=
  match alistFind m key with
  | some v => (v, m, st)
  | none =>
    let created := fresh st
    (created.1, m ++ [(key, created.1)], created.2)

/-- The blend modes offered by the context (the `blend_modes` array in
`GraphicsContext::new`). -/
inductive BlendMode where
  | alpha
  | add
  | subtract
  | invert
  | multiply
  | replace
  | lighten
  | darken
deriving DecidableEq

/-- The error variants of `GameError` relevant to the graphics core. -/
inductive GameError where
  | ResourceLoadError (msg : String)
  | RenderError (msg : String)
deriving DecidableEq

/-- `GameResult<T>` of the source. -/
abbrev GameResult (α : Type) := Except GameError α

/-- Modelled from the spec (the shader registry file `pixelshader.rs` is
not among the sources): a shader registry entry "holds compiled GPU
pipeline state plus its own current blend mode".  `blend_modes` is the
set of blend modes the entry was compiled with (setting any other blend
mode fails), `blend_mode` its current one, and `draw_ok` says whether its
GPU draw call succeeds (resource errors "surface as a distinguished
render error"). -/
structure PixelShader where
  blend_modes : List BlendMode
  blend_mode : BlendMode
  draw_ok : Bool
deriving DecidableEq

/-- Stand-in entry for the `Vec` indexing `self.shaders[id]`, which in
Rust panics on an out-of-range id.  The dummy supports no blend mode at
all, so no state change can be smuggled through an invalid id. -/
def PixelShader.dummy : PixelShader :=
  ⟨[], .alpha, true⟩

/-- Setting the blend mode of a shader registry entry: fails when the
entry holds no compiled pipeline for the requested mode (modelled from
the spec, `pixelshader.rs` not being among the sources). -/
def PixelShader.set_blend_mode (sh : PixelShader) (mode : BlendMode) :
    GameResult PixelShader :=
  if mode ∈ sh.blend_modes then .ok { sh with blend_mode := mode }
  else .error (.RenderError "Could not find blend mode")

/-- The `Globals` uniform record of the pipeline: the MVP matrix. -/
structure Globals where
  mvp_matrix : Mat4

/-- The state of `GraphicsContextGeneric` relevant to the claims:
projection and screen rect, the two matrix stacks (`Vec`s whose top is the
last element), the texture/sampler pair bound in the pipeline data, the
sampler cache together with the factory's creation counter, and the
shader registry with the default and current shader ids.  The window,
device, encoder and buffer handles of the source carry no state any claim
observes and are not modelled. -/
structure GraphicsContextState where
  shader_globals : Globals
  projection : Mat4
  transform_stack : List Mat4
  view_stack : List Mat4
  screen_rect : Rect
  data_tex : Handle × Handle
  default_sampler_info : SamplerInfo
  samplers : List (SamplerInfo × Handle)
  sampler_counter : Nat
  default_shader : Nat
  current_shader : Option Nat
  shaders : List PixelShader

namespace GraphicsContext

/-- `push_transform`: pushes onto the model matrix stack. -/
def push_transform (s : GraphicsContextState) (t : Mat4) : GraphicsContextState :=
  { s with transform_stack := s.transform_stack ++ [t] }

/-- `pop_transform`: pops the model matrix stack only when more than the
base element is present. -/
def pop_transform (s : GraphicsContextState) : GraphicsContextState :=
  if 1 < s.transform_stack.length then
    { s with transform_stack := s.transform_stack.dropLast }
  else s

/-- `set_transform`: replaces the top of the model matrix stack.  The
source asserts the stack is non-empty and panics otherwise; the empty
case (unreachable while the stack invariant holds) is modelled as a
no-op. -/
def set_transform (s : GraphicsContextState) (t : Mat4) : GraphicsContextState :=
  if s.transform_stack.isEmpty then s
  else { s with transform_stack := s.transform_stack.dropLast ++ [t] }

/-- `get_transform`: copies the top of the model matrix stack (the source
asserts non-emptiness; the default is unreachable while the stack
invariant holds). -/
def get_transform (s : GraphicsContextState) : Mat4 :=
  s.transform_stack.getLastD Mat4.identity

/-- `push_view`: pushes onto the view matrix stack. -/
def push_view (s : GraphicsContextState) (v : Mat4) : GraphicsContextState :=
  { s with view_stack := s.view_stack ++ [v] }

/-- `pop_view`: pops the view matrix stack only when more than the base
element is present. -/
def pop_view (s : GraphicsContextState) : GraphicsContextState :=
  if 1 < s.view_stack.length then
    { s with view_stack := s.view_stack.dropLast }
  else s

/-- `set_view`: replaces the top of the view matrix stack (panicking
empty case modelled as a no-op, as for `set_transform`). -/
def set_view (s : GraphicsContextState) (v : Mat4) : GraphicsContextState :=
  if s.view_stack.isEmpty then s
  else { s with view_stack := s.view_stack.dropLast ++ [v] }

/-- `get_view`: copies the top of the view matrix stack. -/
def get_view (s : GraphicsContextState) : Mat4 :=
  s.view_stack.getLastD Mat4.identity

/-- `calculate_transform_matrix`: recomputes the MVP globals from the
projection and the tops (`stack[len - 1]`) of the view and model stacks. -/
def calculate_transform_matrix (s : GraphicsContextState) : GraphicsContextState :=
  let model := s.transform_stack.getD (s.transform_stack.length - 1) Mat4.identity
  let view := s.view_stack.getD (s.view_stack.length - 1) Mat4.identity
  { s with shader_globals := { mvp_matrix := (s.projection.mul view).mul model } }

/-- `set_projection_rect`: stores the rect as the screen rect and derives
the projection as the orthographic projection over `rect.x .. rect.x +
rect.w` and `rect.y .. rect.y + rect.h` with an appended Y-axis flip. -/
def set_projection_rect (s : GraphicsContextState) (rect : Rect) : GraphicsContextState :=
  { s with
    screen_rect := rect
    projection :=
      (new_orthographic rect.x (rect.x + rect.w) rect.y (rect.y + rect.h)
        (-1) 1).append_nonuniform_scaling 1 (-1) 1 }

/-- `update_globals`: uploads `shader_globals` to the GPU constant
buffer.  The upload is an encoder effect with no observable context
state, modelled as a success. -/
def update_globals (s : GraphicsContextState) : GameResult GraphicsContextState :=
  .ok s

end GraphicsContext

/-- The free function `graphics::set_screen_coordinates`: sets the
projection rect, recomputes the MVP matrix and uploads the globals. -/
def set_screen_coordinates (s : GraphicsContextState) (rect : Rect) :
    GameResult GraphicsContextState :=
  GraphicsContext.update_globals
    (GraphicsContext.calculate_transform_matrix
      (GraphicsContext.set_projection_rect s rect))

/-- `SamplerCache::get_or_insert`: `HashMap::entry(info).or_insert_with(||
factory.create_sampler(info))` followed by a clone of the entry.  The
factory is its creation counter; `create_sampler` hands out the counter
as the fresh handle and increments it. -/
def SamplerCache.get_or_insert (samplers : List (SamplerInfo × Handle))
    (info : SamplerInfo) (factory_counter : Nat) :
    Handle × List (SamplerInfo × Handle) × Nat :=
  getOrCreate samplers info (fun n => (n, n + 1)) factory_counter

/-- The state `GraphicsContext::new(width, height)` constructs: identity
placeholder projection and MVP, singleton transform and view stacks, the
default bilinear/clamp sampler obtained through the cache, the white
1x1 image's texture bound in the pipeline data, and the single default
shader compiled with all eight blend modes; then the real projection is
derived via `set_projection_rect` over `(0, 0, width, height)` followed
by `calculate_transform_matrix` (and a globals upload). -/
def GraphicsContext.new (width height : ℚ) (white_texture : Handle) :
    GraphicsContextState :=
  let sampler_info := SamplerInfo.new .bilinear .clamp
  let fetched := SamplerCache.get_or_insert [] sampler_info 0
  let base : GraphicsContextState :=
    { shader_globals := { mvp_matrix := Mat4.identity }
      projection := Mat4.identity
      transform_stack := [Mat4.identity]
      view_stack := [Mat4.identity]
      screen_rect := ⟨0, height, width - 0, 0 - height⟩
      data_tex := (white_texture, fetched.1)
      default_sampler_info := sampler_info
      samplers := fetched.2.1
      sampler_counter := fetched.2.2
      default_shader := 0
      current_shader := none
      shaders := [⟨[.alpha, .add, .subtract, .invert, .multiply, .replace,
        .lighten, .darken], .alpha, true⟩] }
  GraphicsContext.calculate_transform_matrix
    (GraphicsContext.set_projection_rect base ⟨0, 0, width, height⟩)

/-- The matrix-stack operations a caller can issue on the context (the
`get` forms return copies and leave the state unchanged). -/
inductive StackOp where
  | push_transform (t : Mat4)
  | pop_transform
  | set_transform (t : Mat4)
  | get_transform
  | push_view (v : Mat4)
  | pop_view
  | set_view (v : Mat4)
  | get_view

/-- Effect of one stack operation on the context. -/
def applyStackOp (s : GraphicsContextState) : StackOp → GraphicsContextState
  | .push_transform t => GraphicsContext.push_transform s t
  | .pop_transform => GraphicsContext.pop_transform s
  | .set_transform t => GraphicsContext.set_transform s t
  | .get_transform => s
  | .push_view v => GraphicsContext.push_view s v
  | .pop_view => GraphicsContext.pop_view s
  | .set_view v => GraphicsContext.set_view s v
  | .get_view => s

/-- Effect of a sequence of stack operations, first operation first. -/
def applyStackOps (s : GraphicsContextState) : List StackOp → GraphicsContextState
  | [] => s
  | op :: rest => applyStackOps (applyStackOp s op) rest

/-- N successive `push_transform` calls, one per listed matrix. -/
def pushTransforms (s : GraphicsContextState) : List Mat4 → GraphicsContextState
  | [] => s
  | t :: rest => pushTransforms (GraphicsContext.push_transform s t) rest

/-- M successive `pop_transform` calls. -/
def popTransforms (s : GraphicsContextState) : Nat → GraphicsContextState
  | 0 => s
  | m + 1 => popTransforms (GraphicsContext.pop_transform s) m

/-- Shader id the context acts through:
`current_shader.borrow().unwrap_or(default_shader)`. -/
def GraphicsContext.active_shader_id (s : GraphicsContextState) : Nat :=
  s.current_shader.getD s.default_shader

/-- `get_blend_mode` of the context: the blend mode of the active
shader. -/
def GraphicsContext.get_blend_mode (s : GraphicsContextState) : BlendMode :=
  (s.shaders.getD (GraphicsContext.active_shader_id s) PixelShader.dummy).blend_mode

/-- `set_blend_mode` of the context: delegates to the active shader's
entry (the one at `active_shader_id`) and stores the updated entry back
into the registry. -/
def GraphicsContext.set_blend_mode (s : GraphicsContextState) (mode : BlendMode) :
    GameResult GraphicsContextState :=
  match (s.shaders.getD (GraphicsContext.active_shader_id s)
      PixelShader.dummy).set_blend_mode mode with
  | .error e => .error e
  | .ok sh =>
    .ok { s with shaders := s.shaders.set (GraphicsContext.active_shader_id s) sh }

/-- `draw` of the context: issues the GPU draw call through the active
shader; the call can fail (propagated render error) and does not change
the modelled context state. -/
def GraphicsContext.draw (s : GraphicsContextState) : GameResult GraphicsContextState :=
  if (s.shaders.getD (GraphicsContext.active_shader_id s) PixelShader.dummy).draw_ok
  then .ok s
  else .error (.RenderError "shader draw call failed")

/-- The GPU texture factory behind `create_texture_immutable_u8` for a
`D2(width, height)` texture kind with the given RGBA byte payload: it
either fails with a game error or yields a shader-resource-view handle. -/
abbrev Factory := Nat → Nat → List Nat → GameResult Handle

/-- `ImageGeneric`: a texture view, the sampler descriptor, an optional
blend-mode override, and the dimensions in texels (`u32` fields holding
`u16` values). -/
structure Image where
  texture : Handle
  sampler_info : SamplerInfo
  blend_mode : Option BlendMode
  width : Nat
  height : Nat
deriving DecidableEq

/-- `Image::make_raw`: rejects a zero width or height with a resource
load error before asking the factory for a texture, and otherwise builds
the image from the created view.  The power-of-two padding branch of the
source is disabled (`if false`) and therefore not modelled. -/
def Image.make_raw (factory : Factory) (sampler_info : SamplerInfo)
    (width height : Nat) (rgba : List Nat) : GameResult Image :=
  if width = 0 ∨ height = 0 then
    .error (.ResourceLoadError ("Tried to create a texture of size "
      ++ toString width ++ "x" ++ toString height
      ++ ", each dimension must be >0"))
  else
    match factory width height rgba with
    | .error e => .error e
    | .ok view =>
      .ok { texture := view, sampler_info := sampler_info, blend_mode := none
            width := width, height := height }

/-- `Image::from_rgba8`: `make_raw` over the context's factory and
default sampler info. -/
def Image.from_rgba8 (factory : Factory) (s : GraphicsContextState)
    (width height : Nat) (rgba : List Nat) : GameResult Image :=
  Image.make_raw factory s.default_sampler_info width height rgba

/-- Modelled from the spec (`types.rs` is not among the sources): the
`f32 as u8` conversion of a normalized channel scaled by 255, which
truncates toward zero and saturates at the `u8` range. -/
def channel_to_byte (q : ℚ) : Nat :=
  (min 255 (max 0 ⌊q * 255⌋)).toNat

/-- Modelled from the spec: `Color`'s conversion "to 8-bit RGBA"
(`color.into()` in `Image::solid`). -/
def Color.into_rgba8 (c : Color) : Nat × Nat × Nat × Nat :=
  (channel_to_byte c.r, channel_to_byte c.g, channel_to_byte c.b,
    channel_to_byte c.a)

/-- `Image::solid`: a size-by-size buffer of the color's RGBA bytes fed
to `from_rgba8`. -/
def Image.solid (factory : Factory) (s : GraphicsContextState) (size : Nat)
    (color : Color) : GameResult Image :=
  let p := color.into_rgba8
  let pixel_array : List Nat := [p.1, p.2.1, p.2.2.1, p.2.2.2]
  let buffer := (List.replicate (size * size) pixel_array).flatten
  Image.from_rgba8 factory s size size buffer

/-- The `DrawParam` of the graphics module: fractional source rect,
destination, rotation, scale, rotation-pivot offset, shear and tint
color. -/
structure DrawParam where
  src : Rect
  dest : ℚ × ℚ
  rotation : ℚ
  scale : ℚ × ℚ
  offset : ℚ × ℚ
  shear : ℚ × ℚ
  color : Color

/-- `impl Drawable for Image::draw_ex`: rescales the param so a unit
quad renders at the image's pixel size, uploads the instance properties
(an encoder effect), resolves the image's sampler through the cache and
binds texture and sampler, then draws, wrapping the draw in a temporary
blend-mode override exactly when the image carries one that differs from
the ambient mode, and restoring the previous mode afterwards. -/
def Image.draw_ex (img : Image) (s : GraphicsContextState) (param : DrawParam) :
    GameResult GraphicsContextState :=
  let src_width := param.src.w
  let src_height := param.src.h
  let invert_y : ℚ := 1
  let real_scale := (src_width * param.scale.1 * (img.width : ℚ),
    src_height * param.scale.2 * (img.height : ℚ) * invert_y)
  let new_param := { param with
    scale := real_scale
    offset := (param.offset.1 * (-1) * param.scale.1,
      param.offset.2 * param.scale.2) }
  -- gfx.update_instance_properties(new_param)? uploads `new_param` to the
  -- instance buffer: an encoder effect with no modelled context state.
  let fetched := SamplerCache.get_or_insert s.samplers img.sampler_info
    s.sampler_counter
  -- data.vbuf is re-bound to the shared quad vertex buffer (a handle copy).
  let s1 := { s with samplers := fetched.2.1, sampler_counter := fetched.2.2
                     data_tex := (img.texture, fetched.1) }
  match img.blend_mode with
  | some mode =>
    let current_mode := GraphicsContext.get_blend_mode s1
    if current_mode ≠ mode then
      match GraphicsContext.set_blend_mode s1 mode with
      | .error e => .error e
      | .ok s2 =>
        match GraphicsContext.draw s2 with
        | .error e => .error e
        | .ok s3 => GraphicsContext.set_blend_mode s3 current_mode
    else
      match GraphicsContext.draw s1 with
      | .error e => .error e
      | .ok s3 => .ok s3
  | none =>
    match GraphicsContext.draw s1 with
    | .error e => .error e
    | .ok s3 => .ok s3

/-- Splits a flat byte buffer into `height` pixel rows of `rowLen` bytes
each (the buffer of a `width`-pixel-wide RGBA8 image has `rowLen = width
* 4`). -/
def rowChunks (rowLen : Nat) : Nat → List Nat → List (List Nat)
  | 0, _ => []
  | h + 1, d => d.take rowLen :: rowChunks rowLen h (d.drop rowLen)

namespace Wgpu

/-- Modelled from the spec (the helper is defined in the `image.rs` of
the wgpu era, which is not among the sources): the flip correction of
`Canvas::to_rgba8` reverses the vertical order of the pixel rows,
because "reading the canvas as an image yields vertically-flipped
content relative to a normal image". -/
def flip_pixel_data (pixel_data : List Nat) (width height : Nat) : List Nat :=
  ((rowChunks (width * 4) height pixel_data).reverse).flatten

/-- The `Image` half of a `CanvasGeneric`: only the `u16` dimensions are
observed by the claims below (the texture and render-target handles
carry no modelled state). -/
structure CanvasImage where
  width : Nat
  height : Nat
deriving DecidableEq

/-- `CanvasGeneric`: the canvas over its backing image. -/
structure Canvas where
  image : CanvasImage
deriving DecidableEq

/-- `Canvas::width`. -/
def Canvas.width (c : Canvas) : Nat :=
  c.image.width

/-- `Canvas::height`. -/
def Canvas.height (c : Canvas) : Nat :=
  c.image.height

/-- `Canvas::to_rgba8`: reads the raw image pixels back from the GPU
(`Image::to_rgba8` is not among the sources; its result is supplied as
the `readback` argument) and applies the flip correction to them. -/
def Canvas.to_rgba8 (c : Canvas) (readback : GameResult (List Nat)) :
    GameResult (List Nat) :=
  match readback with
  | .error e => .error e
  | .ok pixel_data =>
    .ok (flip_pixel_data pixel_data c.image.width c.image.height)

/-- The call `Canvas::encode` makes on `PngEncoder::encode`: the byte
payload and the dimensions (the color type is always `Rgba8`). -/
structure PngEncodeCall where
  data : List Nat
  width : Nat
  height : Nat
deriving DecidableEq

/-- `Canvas::encode` for `ImageFormat::Png`: extracts the pixels via
`to_rgba8` and passes exactly that data, with the canvas's dimensions,
to the PNG encoder (the filesystem write is a collaborator effect). -/
def Canvas.encode (c : Canvas) (readback : GameResult (List Nat)) :
    GameResult PngEncodeCall :=
  match Canvas.to_rgba8 c readback with
  | .error e => .error e
  | .ok data => .ok { data := data, width := c.width, height := c.height }

/-- The wgpu-era `Transform` held by a `DrawParam`: either the value
form (destination, rotation, scale, offset) or an explicit matrix.  The
defining `types.rs` of this era is not among the sources; the shape is
modelled from the spec's `DrawParam` description. -/
inductive Transform where
  | values (dest : ℚ × ℚ) (rotation : ℚ) (scale : ℚ × ℚ) (offset : ℚ × ℚ)
  | matrix (m : Mat4)

/-- Whether a transform is the matrix form. -/
def Transform.isMatrixForm : Transform → Bool
  | .matrix _ => true
  | .values _ _ _ _ => false

/-- The homogeneous matrix of a translation by `(tx, ty, tz)`. -/
def translation (tx ty tz : ℚ) : Mat4 :=
  Mat4.ofRows ![1, 0, 0, tx] ![0, 1, 0, ty] ![0, 0, 1, tz] ![0, 0, 0, 1]

/-- Modelled from the spec (wgpu-era `types.rs` not among the sources):
`Transform::to_bare_matrix` converts the value form to a matrix — the
spec fixes only that a `DrawParam` "is converted once per draw into a
matrix".  The rotation factor has no exact rational form and is omitted;
no property below depends on the entries of this matrix, only on its
being a matrix. -/
def Transform.to_bare_matrix : Transform → Mat4
  | .matrix m => m
  | .values dest _rotation scale offset =>
    (translation dest.1 dest.2 0).mul
      ((nonuniform_scaling scale.1 scale.2 1).mul
        (translation (-offset.1) (-offset.2) 0))

/-- The wgpu-era `DrawParam`: fractional source rect, tint color and
transform (modelled from the spec, its `types.rs` not being among the
sources). -/
structure DrawParam where
  src : Rect
  color : Color
  trans : Transform

/-- Modelled from the spec: `DrawParam::transform(matrix)` replaces the
transform with the given matrix; this is how `Canvas::draw` and
`flip_draw_param_vertical` produce matrix-form params. -/
def DrawParam.transform (p : DrawParam) (m : Mat4) : DrawParam :=
  { p with trans := .matrix m }

/-- Modelled from the spec: the `DrawParam::src(rect)` builder method
(named `withSrc` here because `src` is the field's name). -/
def DrawParam.withSrc (p : DrawParam) (r : Rect) : DrawParam :=
  { p with src := r }

/-- glam's `Mat4::from_scale_rotation_translation(vec3(1.0, -1.0, 1.0),
Quat::identity(), vec3(0.0, 1.0, 0.0))`: scaling by `(1, -1, 1)`
followed by a translation by `(0, 1, 0)`. -/
def canvas_flip_matrix : Mat4 :=
  Mat4.ofRows ![1, 0, 0, 0] ![0, -1, 0, 1] ![0, 0, 1, 0] ![0, 0, 0, 1]

/-- `flip_draw_param_vertical`: requires a matrix-form param — the
non-matrix arm of the source is a `panic`, modelled as `none` — and
composes the matrix with the vertical flip while compensating the source
rect's Y origin. -/
def flip_draw_param_vertical (param : DrawParam) : Option DrawParam :=
  match param.trans with
  | .matrix mat =>
    let param1 := param.transform (mat.mul canvas_flip_matrix)
    let new_src : Rect :=
      ⟨param1.src.x, (1 - param1.src.h) - param1.src.y, param1.src.w,
        param1.src.h⟩
    some (param1.withSrc new_src)
  | .values _ _ _ _ => none

/-- `impl Drawable for Canvas::draw`: rescales by the source fraction
times the canvas size, replaces the transform by its bare matrix
composed with that scale (`param.transform(...)`, making the param
matrix-form), applies the vertical flip correction and hands the result
to `image::draw_image_raw`.  The value returned is the param given to
`draw_image_raw`; `none` models a propagated panic. -/
def Canvas.draw (c : Canvas) (param : DrawParam) : Option DrawParam :=
  let scale_x := param.src.w * (c.width : ℚ)
  let scale_y := param.src.h * (c.height : ℚ)
  let param1 := param.transform
    ((param.trans.to_bare_matrix).mul (nonuniform_scaling scale_x scale_y 1))
  flip_draw_param_vertical param1

end Wgpu

/-- wgpu's `BufferBindingType`. -/
inductive BufferBindingType where
  | uniform
  | storage (read_only : Bool)
deriving DecidableEq

/-- The `ty` field of a bind-group layout entry, covering the three
builder methods (`buffer`, `image`, `sampler`). -/
inductive BindingType where
  | buffer (ty : BufferBindingType) (has_dynamic_offset : Bool)
  | texture
  | sampler
deriving DecidableEq

/-- wgpu's `BindGroupLayoutEntry` as the builder accumulates it: binding
index, visibility stage flags (a bitset, modelled as a number), and the
binding type. -/
structure BindGroupLayoutEntry where
  binding : Nat
  visibility : Nat
  ty : BindingType
deriving DecidableEq

/-- `BindGroupLayoutBuilder`: a list of layout entries plus a seed. -/
structure BindGroupLayoutBuilder where
  entries : List BindGroupLayoutEntry
  seed : Nat
deriving DecidableEq

/-- `BindGroupLayoutBuilder::new`. -/
def BindGroupLayoutBuilder.new : BindGroupLayoutBuilder :=
  ⟨[], 0⟩

/-- `BindGroupLayoutBuilder::seed`: stores the hash of the given seed
value (`DefaultHasher` over a seed already given as a number is modelled
as the number itself). -/
def BindGroupLayoutBuilder.withSeed (b : BindGroupLayoutBuilder) (s : Nat) :
    BindGroupLayoutBuilder :=
  { b with seed := s }

/-- `BindGroupLayoutBuilder::buffer`: appends a buffer layout entry at
the next binding index. -/
def BindGroupLayoutBuilder.buffer (b : BindGroupLayoutBuilder)
    (visibility : Nat) (ty : BufferBindingType) (has_dynamic_offset : Bool) :
    BindGroupLayoutBuilder :=
  { b with entries := b.entries
      ++ [⟨b.entries.length, visibility, .buffer ty has_dynamic_offset⟩] }

/-- `BindGroupLayoutBuilder::image`: appends a texture layout entry at
the next binding index. -/
def BindGroupLayoutBuilder.image (b : BindGroupLayoutBuilder)
    (visibility : Nat) : BindGroupLayoutBuilder :=
  { b with entries := b.entries ++ [⟨b.entries.length, visibility, .texture⟩] }

/-- `BindGroupLayoutBuilder::sampler`: appends a sampler layout entry at
the next binding index. -/
def BindGroupLayoutBuilder.withSampler (b : BindGroupLayoutBuilder)
    (visibility : Nat) : BindGroupLayoutBuilder :=
  { b with entries := b.entries ++ [⟨b.entries.length, visibility, .sampler⟩] }

/-- `BindGroupEntryKey`: the cache key contributed by one builder call —
a buffer with offset and optional size, a texture view, or a sampler. -/
inductive BindGroupEntryKey where
  | buffer (buffer : Handle) (offset : Nat) (size : Option Nat)
  | image (view : Handle)
  | sampler (s : Handle)
deriving DecidableEq

/-- The resource of a wgpu `BindGroupEntry`. -/
inductive BindingResource where
  | buffer (buffer : Handle) (offset : Nat) (size : Option Nat)
  | textureView (view : Handle)
  | sampler (s : Handle)
deriving DecidableEq

/-- wgpu's `BindGroupEntry`: binding index and bound resource. -/
structure BindGroupEntry where
  binding : Nat
  resource : BindingResource
deriving DecidableEq

/-- `BindGroupBuilder`: the layout builder it grows alongside, the
accumulated bind-group entries, and the accumulated cache key. -/
structure BindGroupBuilder where
  layout : BindGroupLayoutBuilder
  entries : List BindGroupEntry
  key : List BindGroupEntryKey
deriving DecidableEq

/-- `BindGroupBuilder::new`. -/
def BindGroupBuilder.new : BindGroupBuilder :=
  ⟨BindGroupLayoutBuilder.new, [], []⟩

/-- `BindGroupBuilder::buffer`: records the buffer entry, its cache key,
and the matching layout entry. -/
def BindGroupBuilder.buffer (b : BindGroupBuilder) (buf : Handle)
    (offset : Nat) (visibility : Nat) (ty : BufferBindingType)
    (has_dynamic_offset : Bool) (size : Option Nat) : BindGroupBuilder :=
  { layout := b.layout.buffer visibility ty has_dynamic_offset
    entries := b.entries
      ++ [⟨b.entries.length, .buffer buf offset size⟩]
    key := b.key ++ [.buffer buf offset size] }

/-- `BindGroupBuilder::image`: records the texture-view entry, its cache
key, and the matching layout entry. -/
def BindGroupBuilder.image (b : BindGroupBuilder) (view : Handle)
    (visibility : Nat) : BindGroupBuilder :=
  { layout := b.layout.image visibility
    entries := b.entries ++ [⟨b.entries.length, .textureView view⟩]
    key := b.key ++ [.image view] }

/-- `BindGroupBuilder::sampler`: records the sampler entry, its cache
key, and the matching layout entry. -/
def BindGroupBuilder.withSampler (b : BindGroupBuilder) (smp : Handle)
    (visibility : Nat) : BindGroupBuilder :=
  { layout := b.layout.withSampler visibility
    entries := b.entries ++ [⟨b.entries.length, .sampler smp⟩]
    key := b.key ++ [.sampler smp] }

/-- `BindGroupCache`: the layout cache keyed by `(entries, seed)` and the
group cache keyed by the accumulated key sequence. -/
structure BindGroupCache where
  layouts : List ((List BindGroupLayoutEntry × Nat) × Handle)
  groups : List (List BindGroupEntryKey × Handle)
deriving DecidableEq

/-- `BindGroupCache::new`. -/
def BindGroupCache.new : BindGroupCache :=
  ⟨[], []⟩

/-- `BindGroupLayoutBuilder::create`: `cache.layouts.entry((entries,
seed)).or_insert_with_key(|..| device.create_bind_group_layout(..))`
followed by a clone.  The device is its creation counter;
`create_bind_group_layout` hands out the counter as the fresh handle
and increments it. -/
def BindGroupLayoutBuilder.create (b : BindGroupLayoutBuilder)
    (cache : BindGroupCache) (device_counter : Nat) :
    Handle × BindGroupCache × Nat :=
  let fetched := getOrCreate cache.layouts (b.entries, b.seed)
    (fun n => (n, n + 1)) device_counter
  (fetched.1, { cache with layouts := fetched.2.1 }, fetched.2.2)

/-- `BindGroupBuilder::create`: creates (or fetches) the layout through
the layout cache, then `cache.groups.entry(key).or_insert_with(||
device.create_bind_group(..))` followed by a clone; returns the group
and layout pair. -/
def BindGroupBuilder.create (b : BindGroupBuilder) (cache : BindGroupCache)
    (device_counter : Nat) :
    (Handle × Handle) × BindGroupCache × Nat :=
  let made_layout := b.layout.create cache device_counter
  let cache1 := made_layout.2.1
  let fetched := getOrCreate cache1.groups b.key (fun n => (n, n + 1))
    made_layout.2.2
  ((fetched.1, made_layout.1), { cache1 with groups := fetched.2.1 },
    fetched.2.2)

/-- A concrete context shared by the concrete instances below: the state
`GraphicsContext::new` builds for a 640x480 window, with the white
texture as handle 0. -/
def sampleContext : GraphicsContextState :=
  GraphicsContext.new 640 480 0

theorem push_transform_length (s : GraphicsContextState) (t : Mat4) :
    (GraphicsContext.push_transform s t).transform_stack.length
      = s.transform_stack.length + 1 := by
  simp [GraphicsContext.push_transform]

theorem pop_transform_length (s : GraphicsContextState)
    (h : 1 ≤ s.transform_stack.length) :
    (GraphicsContext.pop_transform s).transform_stack.length
      = max 1 (s.transform_stack.length - 1) := by
  unfold GraphicsContext.pop_transform
  split <;> rename_i hlen
  · simp only [List.length_dropLast]
    omega
  · omega

theorem pushTransforms_length (ts : List Mat4) (s : GraphicsContextState) :
    (pushTransforms s ts).transform_stack.length
      = s.transform_stack.length + ts.length := by
  induction ts generalizing s with
  | nil => simp [pushTransforms]
  | cons t rest ih =>
    simp [pushTransforms, ih, push_transform_length]
    omega

theorem popTransforms_length (m : Nat) (s : GraphicsContextState)
    (h : 1 ≤ s.transform_stack.length) :
    (popTransforms s m).transform_stack.length
      = max 1 (s.transform_stack.length - m) := by
  induction m generalizing s with
  | zero => simp [popTransforms]; omega
  | succ k ih =>
    have hpop := pop_transform_length s h
    have hge : 1 ≤ (GraphicsContext.pop_transform s).transform_stack.length := by
      omega
    simp only [popTransforms]
    rw [ih _ hge, hpop]
    omega

theorem applyStackOp_lengths (s : GraphicsContextState) (op : StackOp)
    (ht : 1 ≤ s.transform_stack.length) (hv : 1 ≤ s.view_stack.length) :
    1 ≤ (applyStackOp s op).transform_stack.length
      ∧ 1 ≤ (applyStackOp s op).view_stack.length := by
  cases op with
  | push_transform t =>
    constructor
    · simp only [applyStackOp, GraphicsContext.push_transform,
        List.length_append, List.length_cons, List.length_nil]
      omega
    · exact hv
  | pop_transform =>
    constructor
    · simp only [applyStackOp, GraphicsContext.pop_transform]
      split <;> rename_i hlen
      · simp only [List.length_dropLast]; omega
      · exact ht
    · simp only [applyStackOp, GraphicsContext.pop_transform]
      split <;> exact hv
  | set_transform t =>
    simp only [applyStackOp, GraphicsContext.set_transform]
    split <;> rename_i hempty
    · exact ⟨ht, hv⟩
    · refine ⟨?_, hv⟩
      simp only [List.length_append, List.length_cons, List.length_nil]
      omega
  | get_transform => exact ⟨ht, hv⟩
  | push_view v =>
    constructor
    · exact ht
    · simp only [applyStackOp, GraphicsContext.push_view,
        List.length_append, List.length_cons, List.length_nil]
      omega
  | pop_view =>
    constructor
    · simp only [applyStackOp, GraphicsContext.pop_view]
      split <;> exact ht
    · simp only [applyStackOp, GraphicsContext.pop_view]
      split <;> rename_i hlen
      · simp only [List.length_dropLast]; omega
      · exact hv
  | set_view v =>
    simp only [applyStackOp, GraphicsContext.set_view]
    split <;> rename_i hempty
    · exact ⟨ht, hv⟩
    · refine ⟨ht, ?_⟩
      simp only [List.length_append, List.length_cons, List.length_nil]
      omega
  | get_view => exact ⟨ht, hv⟩

/-- C1: a fresh context's transform and view stacks each hold exactly one
element; after N `push_transform` calls and then M `pop_transform` calls
with M < N the transform stack length is `1 + N - M`; a `pop_transform`
at length 1 leaves the length 1; and every sequence of push/pop/set/get
operations keeps both stacks non-empty. -/
theorem transform_stack_invariant :
    (∀ (w h : ℚ) (wt : Handle),
      (GraphicsContext.new w h wt).transform_stack.length = 1
        ∧ (GraphicsContext.new w h wt).view_stack.length = 1)
    ∧ (∀ (w h : ℚ) (wt : Handle) (ts : List Mat4) (m : Nat), m < ts.length →
        (popTransforms (pushTransforms (GraphicsContext.new w h wt) ts)
          m).transform_stack.length = 1 + ts.length - m)
    ∧ (∀ s : GraphicsContextState, s.transform_stack.length = 1 →
        (GraphicsContext.pop_transform s).transform_stack.length = 1)
    ∧ (∀ (s : GraphicsContextState) (ops : List StackOp),
        1 ≤ s.transform_stack.length → 1 ≤ s.view_stack.length →
        1 ≤ (applyStackOps s ops).transform_stack.length
          ∧ 1 ≤ (applyStackOps s ops).view_stack.length) := by
  refine ⟨?_, ?_, ?_, ?_⟩
  · intro w h wt
    constructor <;> rfl
  · intro w h wt ts m hm
    have hfresh : (GraphicsContext.new w h wt).transform_stack.length = 1 := rfl
    have hpush := pushTransforms_length ts (GraphicsContext.new w h wt)
    have hge : 1 ≤ (pushTransforms (GraphicsContext.new w h wt)
        ts).transform_stack.length := by omega
    have hpop := popTransforms_length m _ hge
    omega
  · intro s h1
    unfold GraphicsContext.pop_transform
    split <;> rename_i hlen
    · omega
    · exact h1
  · intro s ops
    induction ops generalizing s with
    | nil => intro ht hv; exact ⟨ht, hv⟩
    | cons op rest ih =>
      intro ht hv
      have hstep := applyStackOp_lengths s op ht hv
      exact ih (applyStackOp s op) hstep.1 hstep.2

/-- Concrete instance of C1's theorem: pushing three matrices and popping
two on a fresh context leaves the transform stack at length 2, and one
pop on the fresh context leaves it at length 1. -/
theorem transform_stack_invariant_witness :
    (popTransforms (pushTransforms (GraphicsContext.new 640 480 0)
      [Mat4.identity, Mat4.identity, Mat4.identity]) 2).transform_stack.length
      = 1 + 3 - 2
    ∧ (GraphicsContext.pop_transform
        (GraphicsContext.new 640 480 0)).transform_stack.length = 1 :=
  ⟨transform_stack_invariant.2.1 640 480 0
      [Mat4.identity, Mat4.identity, Mat4.identity] 2 (by decide),
    transform_stack_invariant.2.2.1 (GraphicsContext.new 640 480 0)
      (transform_stack_invariant.1 640 480 0).1⟩

theorem list_getD_length_sub_one {α : Type} (l : List α) (d : α)
    (h : l ≠ []) : l.getD (l.length - 1) d = l.getLast h := by
  have hlen : l.length - 1 < l.length := by
    cases l with
    | nil => exact absurd rfl h
    | cons a as => simp
  rw [List.getD_eq_getElem l d hlen, List.getLast_eq_getElem]

/-- C3: `calculate_transform_matrix` sets the globals' MVP matrix to
`projection * view * model`, with `view` the top of the view stack and
`model` the top of the transform stack, in exactly that order. -/
theorem calculate_transform_matrix_mvp (s : GraphicsContextState)
    (ht : s.transform_stack ≠ []) (hv : s.view_stack ≠ []) :
    (GraphicsContext.calculate_transform_matrix s).shader_globals.mvp_matrix
      = (s.projection.mul (s.view_stack.getLast hv)).mul
          (s.transform_stack.getLast ht) := by
  simp only [GraphicsContext.calculate_transform_matrix,
    list_getD_length_sub_one _ _ ht, list_getD_length_sub_one _ _ hv]

theorem sampleContext_stacks :
    sampleContext.transform_stack ≠ [] ∧ sampleContext.view_stack ≠ [] :=
  ⟨by simp [sampleContext, GraphicsContext.new,
      GraphicsContext.calculate_transform_matrix,
      GraphicsContext.set_projection_rect],
    by simp [sampleContext, GraphicsContext.new,
      GraphicsContext.calculate_transform_matrix,
      GraphicsContext.set_projection_rect]⟩

/-- Concrete instance of C3's theorem on the sample context. -/
theorem calculate_transform_matrix_mvp_witness :
    (GraphicsContext.calculate_transform_matrix
        sampleContext).shader_globals.mvp_matrix
      = (sampleContext.projection.mul
          (sampleContext.view_stack.getLast sampleContext_stacks.2)).mul
          (sampleContext.transform_stack.getLast sampleContext_stacks.1) :=
  calculate_transform_matrix_mvp sampleContext sampleContext_stacks.1
    sampleContext_stacks.2

/-- The projection claim C2 prescribes: the orthographic projection of
the rect read as a center-based rectangle — spanning `x - w/2 .. x +
w/2` and `y - h/2 .. y + h/2` — with the appended Y-axis flip.  This
definition follows the claim's words (not the source), for comparison
against `set_projection_rect`. -/
def specCenterBasedProjection (rect : Rect) : Mat4 :=
  (new_orthographic (rect.x - rect.w / 2) (rect.x + rect.w / 2)
    (rect.y - rect.h / 2) (rect.y + rect.h / 2) (-1)
    1).append_nonuniform_scaling 1 (-1) 1

/-- C2 counterexample: at the rect `(0, 0, 2, 2)` the projection stored
by `set_projection_rect` differs from the center-based one the claim
prescribes — the source spans `x .. x + w` (here `0 .. 2`), the claim
`x - w/2 .. x + w/2` (here `-1 .. 1`), so the translation entry of the
first row is `-1` in the code and `0` under the claim. -/
theorem set_projection_rect_not_center_based :
    (GraphicsContext.set_projection_rect sampleContext
        ⟨0, 0, 2, 2⟩).projection
      ≠ specCenterBasedProjection ⟨0, 0, 2, 2⟩ := by
  intro hEq
  have h03 := congrArg (fun m => m.entry 0 3) hEq
  simp only [GraphicsContext.set_projection_rect, specCenterBasedProjection,
    Mat4.append_nonuniform_scaling, nonuniform_scaling, new_orthographic,
    Mat4.mul, Mat4.ofRows] at h03
  norm_num at h03

/-- C2 amended: `set_projection_rect(r)` (and through it
`set_screen_coordinates`) sets the projection to the orthographic
projection of the rect read as a corner-based rectangle — spanning
`r.x .. r.x + r.w` and `r.y .. r.y + r.h` — composed with the Y-axis
flip (nonuniform scale by `(1, -1, 1)`); for nondegenerate extents the
composite has the explicit entries below, and the rect is stored as the
screen rect. -/
theorem set_projection_rect_corner_based (s : GraphicsContextState)
    (r : Rect) (hw : r.w ≠ 0) (hh : r.h ≠ 0) :
    (GraphicsContext.set_projection_rect s r).projection
      = (new_orthographic r.x (r.x + r.w) r.y (r.y + r.h) (-1)
          1).append_nonuniform_scaling 1 (-1) 1
    ∧ (GraphicsContext.set_projection_rect s r).projection
      = Mat4.ofRows
          ![2 / r.w, 0, 0, -(2 * r.x + r.w) / r.w]
          ![0, -(2 / r.h), 0, (2 * r.y + r.h) / r.h]
          ![0, 0, -1, 0]
          ![0, 0, 0, 1]
    ∧ (GraphicsContext.set_projection_rect s r).screen_rect = r
    ∧ (∀ s2, set_screen_coordinates s r = .ok s2 →
        s2.projection = (GraphicsContext.set_projection_rect s r).projection) := by
  refine ⟨rfl, ?_, rfl, ?_⟩
  · apply Mat4.entry_injective
    funext i j
    fin_cases i <;> fin_cases j <;>
      · simp only [GraphicsContext.set_projection_rect,
          Mat4.append_nonuniform_scaling, nonuniform_scaling,
          new_orthographic, Mat4.mul, Mat4.ofRows]
        norm_num [add_sub_cancel_left, Matrix.vecHead, Matrix.vecTail]
        try rw [div_eq_div_iff hh hh]
        try ring
  · intro s2 h2
    simp only [set_screen_coordinates, GraphicsContext.update_globals,
      Except.ok.injEq] at h2
    rw [← h2]
    rfl

/-- Concrete instance of C2's amended theorem at the rect `(1, 2, 4, 8)`
on the sample context. -/
theorem set_projection_rect_corner_based_witness :
    (GraphicsContext.set_projection_rect sampleContext
        ⟨1, 2, 4, 8⟩).projection
      = Mat4.ofRows
          ![2 / 4, 0, 0, -(2 * 1 + 4) / 4]
          ![0, -(2 / 8), 0, (2 * 2 + 8) / 8]
          ![0, 0, -1, 0]
          ![0, 0, 0, 1] := by
  have h := (set_projection_rect_corner_based sampleContext ⟨1, 2, 4, 8⟩
    (by norm_num) (by norm_num)).2.1
  simpa using h

/-- C4: a zero width or height makes `make_raw` — and through it
`from_rgba8` and `solid` — return the resource-load error, for every
factory whatsoever (so before any texture-creation call could be
attempted, the result not depending on the factory at all); and no image
a successful `make_raw` returns has a zero dimension. -/
theorem zero_size_image_rejected :
    (∀ (factory : Factory) (si : SamplerInfo) (w h : Nat) (rgba : List Nat),
      w = 0 ∨ h = 0 →
      Image.make_raw factory si w h rgba
        = .error (.ResourceLoadError ("Tried to create a texture of size "
            ++ toString w ++ "x" ++ toString h
            ++ ", each dimension must be >0")))
    ∧ (∀ (factory : Factory) (s : GraphicsContextState) (w h : Nat)
        (rgba : List Nat),
      w = 0 ∨ h = 0 →
      Image.from_rgba8 factory s w h rgba
        = .error (.ResourceLoadError ("Tried to create a texture of size "
            ++ toString w ++ "x" ++ toString h
            ++ ", each dimension must be >0")))
    ∧ (∀ (factory : Factory) (s : GraphicsContextState) (color : Color),
      Image.solid factory s 0 color
        = .error (.ResourceLoadError
            "Tried to create a texture of size 0x0, each dimension must be >0"))
    ∧ (∀ (factory : Factory) (si : SamplerInfo) (w h : Nat)
        (rgba : List Nat) (img : Image),
      Image.make_raw factory si w h rgba = .ok img →
      1 ≤ img.width ∧ 1 ≤ img.height) := by
  have hbase : ∀ (factory : Factory) (si : SamplerInfo) (w h : Nat)
      (rgba : List Nat), w = 0 ∨ h = 0 →
      Image.make_raw factory si w h rgba
        = .error (.ResourceLoadError ("Tried to create a texture of size "
            ++ toString w ++ "x" ++ toString h
            ++ ", each dimension must be >0")) := by
    intro factory si w h rgba hzero
    unfold Image.make_raw
    rw [if_pos hzero]
  refine ⟨hbase, ?_, ?_, ?_⟩
  · intro factory s w h rgba hzero
    exact hbase factory s.default_sampler_info w h rgba hzero
  · intro factory s color
    unfold Image.solid Image.from_rgba8
    exact hbase factory s.default_sampler_info 0 0 _ (Or.inl rfl)
  · intro factory si w h rgba img hok
    unfold Image.make_raw at hok
    split at hok <;> rename_i hzero
    · exact absurd hok (by simp)
    · revert hok
      cases factory w h rgba with
      | error e => intro hok; exact absurd hok (by simp)
      | ok view =>
        intro hok
        simp only [Except.ok.injEq] at hok
        rw [← hok]
        push_neg at hzero
        show 1 ≤ w ∧ 1 ≤ h
        omega

/-- Concrete instance of C4's theorem: a 0x7 request fails with the
resource-load error even under a factory that always succeeds. -/
theorem zero_size_image_rejected_witness :
    Image.make_raw (fun _ _ _ => .ok 0) (SamplerInfo.new .bilinear .clamp)
        0 7 []
      = .error (.ResourceLoadError
          "Tried to create a texture of size 0x7, each dimension must be >0") :=
  zero_size_image_rejected.1 (fun _ _ _ => .ok 0)
    (SamplerInfo.new .bilinear .clamp) 0 7 [] (Or.inl rfl)

/-- C5: an image successfully constructed by `from_rgba8(w, h, data)`
with positive dimensions and `data.len() == w * h * 4` reports `width()
== w` and `height() == h`. -/
theorem from_rgba8_dimensions (factory : Factory) (s : GraphicsContextState)
    (w h : Nat) (rgba : List Nat) (img : Image)
    (hw : 1 ≤ w) (hh : 1 ≤ h) (hlen : rgba.length = w * h * 4)
    (hok : Image.from_rgba8 factory s w h rgba = .ok img) :
    img.width = w ∧ img.height = h := by
  unfold Image.from_rgba8 Image.make_raw at hok
  split at hok <;> rename_i hzero
  · exact absurd hok (by simp)
  · revert hok
    cases factory w h rgba with
    | error e => intro hok; exact absurd hok (by simp)
    | ok view =>
      intro hok
      simp only [Except.ok.injEq] at hok
      rw [← hok]
      exact ⟨rfl, rfl⟩

/-- The image a factory that hands out handle 0 yields for a 2x1
`from_rgba8` request on the sample context. -/
def sampleImage : Image :=
  { texture := 0
    sampler_info := SamplerInfo.new .bilinear .clamp
    blend_mode := none
    width := 2
    height := 1 }

/-- Concrete instance of C5's theorem: a 2x1 image from an 8-byte buffer
has width 2 and height 1. -/
theorem from_rgba8_dimensions_witness :
    sampleImage.width = 2 ∧ sampleImage.height = 1 :=
  from_rgba8_dimensions (fun _ _ _ => .ok 0) sampleContext 2 1
    [10, 20, 30, 40, 50, 60, 70, 80] sampleImage (by decide) (by decide)
    (by decide) rfl

theorem list_getD_of_length_le {α : Type} (l : List α) (d : α) (n : Nat)
    (h : l.length ≤ n) : l.getD n d = d := by
  rw [List.getD_eq_getElem?_getD, List.getElem?_eq_none h]
  rfl

theorem list_getD_set_self {α : Type} (l : List α) (i : Nat) (a d : α)
    (h : i < l.length) : (l.set i a).getD i d = a := by
  have hlen : i < (l.set i a).length := by
    rw [List.length_set]; exact h
  rw [List.getD_eq_getElem _ _ hlen]
  exact List.getElem_set_self hlen

theorem get_blend_mode_after_set (s s2 : GraphicsContextState) (m : BlendMode)
    (h : GraphicsContext.set_blend_mode s m = .ok s2) :
    GraphicsContext.get_blend_mode s2 = m
    ∧ s2.current_shader = s.current_shader
    ∧ s2.default_shader = s.default_shader := by
  unfold GraphicsContext.set_blend_mode at h
  revert h
  cases hsh : (s.shaders.getD (GraphicsContext.active_shader_id s)
      PixelShader.dummy).set_blend_mode m with
  | error e => intro h; exact absurd h (by simp)
  | ok sh =>
    intro h
    simp only [Except.ok.injEq] at h
    unfold PixelShader.set_blend_mode at hsh
    split at hsh <;> rename_i hmem
    · simp only [Except.ok.injEq] at hsh
      have hlt : GraphicsContext.active_shader_id s < s.shaders.length := by
        by_contra hge
        push_neg at hge
        rw [list_getD_of_length_le _ _ _ hge] at hmem
        simp [PixelShader.dummy] at hmem
      subst h
      refine ⟨?_, rfl, rfl⟩
      show ((s.shaders.set (GraphicsContext.active_shader_id s) sh).getD
        (GraphicsContext.active_shader_id s) PixelShader.dummy).blend_mode = m
      rw [list_getD_set_self _ _ _ _ hlt, ← hsh]
    · exact absurd hsh (by simp)

theorem draw_preserves_state (s s2 : GraphicsContextState)
    (h : GraphicsContext.draw s = .ok s2) : s2 = s := by
  unfold GraphicsContext.draw at h
  split at h
  · simpa using h.symm
  · simp at h

/-- C6: a successful `Image::draw_ex` leaves `get_blend_mode` reporting
the same blend mode as before the call — restored through the save and
restore pair when the image's override differs from the ambient mode —
and when the override is absent or equal to the ambient mode the shader
registry (which stores the blend modes) is not modified at all. -/
theorem image_draw_ex_restores_blend_mode (img : Image)
    (s s' : GraphicsContextState) (param : DrawParam)
    (hok : Image.draw_ex img s param = .ok s') :
    GraphicsContext.get_blend_mode s' = GraphicsContext.get_blend_mode s
    ∧ ((img.blend_mode = none
        ∨ img.blend_mode = some (GraphicsContext.get_blend_mode s))
      → s'.shaders = s.shaders) := by
  unfold Image.draw_ex at hok
  cases himg : img.blend_mode with
  | none =>
    simp only [himg] at hok
    split at hok
    · exact absurd hok (by simp)
    · rename_i s3 hdraw
      simp only [Except.ok.injEq] at hok
      have hs3 := draw_preserves_state _ _ hdraw
      rw [← hok, hs3]
      exact ⟨rfl, fun _ => rfl⟩
  | some mode =>
    simp only [himg] at hok
    split at hok <;> rename_i hne
    · -- override differs from the ambient mode: set, draw, restore
      split at hok
      · exact absurd hok (by simp)
      · rename_i s2 hset
        split at hok
        · exact absurd hok (by simp)
        · rename_i s3 hdraw
          have hs3 := draw_preserves_state _ _ hdraw
          have hrestored := get_blend_mode_after_set _ _ _ hok
          refine ⟨?_, ?_⟩
          · rw [hrestored.1]; rfl
          · intro hyp
            rcases hyp with hyp | hyp
            · exact absurd hyp (by simp)
            · simp only [Option.some.injEq] at hyp
              exact absurd hyp.symm hne
    · -- override equals the ambient mode: no blend-mode change at all
      split at hok
      · exact absurd hok (by simp)
      · rename_i s3 hdraw
        simp only [Except.ok.injEq] at hok
        have hs3 := draw_preserves_state _ _ hdraw
        rw [← hok, hs3]
        exact ⟨rfl, fun _ => rfl⟩

/-- A small context for the concrete blend-mode instance: a single
shader compiled for the alpha and add blend modes, currently on alpha. -/
def tinyContext : GraphicsContextState :=
  { shader_globals := { mvp_matrix := Mat4.identity }
    projection := Mat4.identity
    transform_stack := [Mat4.identity]
    view_stack := [Mat4.identity]
    screen_rect := ⟨0, 0, 1, 1⟩
    data_tex := (0, 0)
    default_sampler_info := SamplerInfo.new .bilinear .clamp
    samplers := []
    sampler_counter := 0
    default_shader := 0
    current_shader := none
    shaders := [⟨[.alpha, .add], .alpha, true⟩] }

/-- An image carrying an add blend-mode override, differing from
`tinyContext`'s ambient alpha mode. -/
def tinyImage : Image :=
  { texture := 5
    sampler_info := SamplerInfo.new .bilinear .clamp
    blend_mode := some .add
    width := 1
    height := 1 }

/-- A default draw param. -/
def tinyParam : DrawParam :=
  { src := ⟨0, 0, 1, 1⟩
    dest := (0, 0)
    rotation := 0
    scale := (1, 1)
    offset := (0, 0)
    shear := (0, 0)
    color := ⟨1, 1, 1, 1⟩ }

/-- The state the concrete `draw_ex` call returns. -/
def tinyDrawResult : GraphicsContextState :=
  match Image.draw_ex tinyImage tinyContext tinyParam with
  | .ok s2 => s2
  | .error _ => tinyContext

/-- Concrete instance of C6's theorem: drawing `tinyImage` (override
add) on `tinyContext` (ambient alpha) returns successfully and leaves
`get_blend_mode` reporting alpha. -/
theorem image_draw_ex_restores_blend_mode_witness :
    GraphicsContext.get_blend_mode tinyDrawResult
      = GraphicsContext.get_blend_mode tinyContext
    ∧ ((tinyImage.blend_mode = none
        ∨ tinyImage.blend_mode
            = some (GraphicsContext.get_blend_mode tinyContext))
      → tinyDrawResult.shaders = tinyContext.shaders) :=
  image_draw_ex_restores_blend_mode tinyImage tinyContext tinyDrawResult
    tinyParam rfl

section CacheLemmas

variable {K V σ : Type} [DecidableEq K]

theorem alistFind_append_of_some (m l : List (K × V)) (k : K) (v : V)
    (h : alistFind m k = some v) : alistFind (m ++ l) k = some v := by
  induction m with
  | nil => simp [alistFind] at h
  | cons p rest ih =>
    obtain ⟨k', v'⟩ := p
    rw [List.cons_append]
    simp only [alistFind] at h ⊢
    split at h <;> rename_i hk
    · rw [if_pos hk]; exact h
    · rw [if_neg hk]; exact ih h

theorem alistFind_append_of_none (m l : List (K × V)) (k : K)
    (h : alistFind m k = none) : alistFind (m ++ l) k = alistFind l k := by
  induction m with
  | nil => simp
  | cons p rest ih =>
    obtain ⟨k', v'⟩ := p
    rw [List.cons_append]
    simp only [alistFind] at h ⊢
    split at h <;> rename_i hk
    · exact absurd h (by simp)
    · rw [if_neg hk]; exact ih h

theorem getOrCreate_hit (m : List (K × V)) (k : K) (f : σ → V × σ) (st : σ)
    (v : V) (h : alistFind m k = some v) :
    getOrCreate m k f st = (v, m, st) := by
  unfold getOrCreate
  rw [h]

theorem getOrCreate_miss (m : List (K × V)) (k : K) (f : σ → V × σ) (st : σ)
    (h : alistFind m k = none) :
    getOrCreate m k f st = ((f st).1, m ++ [(k, (f st).1)], (f st).2) := by
  unfold getOrCreate
  rw [h]

theorem getOrCreate_find_self (m : List (K × V)) (k : K) (f : σ → V × σ)
    (st : σ) :
    alistFind (getOrCreate m k f st).2.1 k = some (getOrCreate m k f st).1 := by
  cases h : alistFind m k with
  | some v => rw [getOrCreate_hit m k f st v h]; exact h
  | none =>
    rw [getOrCreate_miss m k f st h]
    rw [alistFind_append_of_none m _ k h]
    simp [alistFind]

theorem getOrCreate_preserves (m : List (K × V)) (k k' : K) (f : σ → V × σ)
    (st : σ) (v : V) (h : alistFind m k' = some v) :
    alistFind (getOrCreate m k f st).2.1 k' = some v := by
  cases hk : alistFind m k with
  | some w => rw [getOrCreate_hit m k f st w hk]; exact h
  | none =>
    rw [getOrCreate_miss m k f st hk]
    exact alistFind_append_of_some m _ k' v h

theorem alistFind_getOrCreate_other (m : List (K × V)) (k k' : K)
    (f : σ → V × σ) (st : σ) (hne : k ≠ k') :
    alistFind (getOrCreate m k f st).2.1 k' = alistFind m k' := by
  cases hk : alistFind m k with
  | some w => rw [getOrCreate_hit m k f st w hk]
  | none =>
    rw [getOrCreate_miss m k f st hk]
    cases h' : alistFind m k' with
    | some v => exact alistFind_append_of_some m _ k' v h'
    | none =>
      rw [alistFind_append_of_none m _ k' h']
      simp [alistFind, hne]

end CacheLemmas

/-- A sequence of `get_or_insert` calls, threading the cache and the
factory counter. -/
def SamplerCache.run : List SamplerInfo →
    List (SamplerInfo × Handle) × Nat → List (SamplerInfo × Handle) × Nat
  | [], st => st
  | info :: rest, st =>
    SamplerCache.run rest
      ((SamplerCache.get_or_insert st.1 info st.2).2.1,
        (SamplerCache.get_or_insert st.1 info st.2).2.2)

/-- Number of `factory.create_sampler` invocations with descriptor `d`
during a sequence of `get_or_insert` calls (the factory is invoked
exactly when the descriptor misses the cache). -/
def SamplerCache.creations : List SamplerInfo →
    List (SamplerInfo × Handle) × Nat → SamplerInfo → Nat
  | [], _, _ => 0
  | info :: rest, st, d =>
    (if info = d ∧ alistFind st.1 info = none then 1 else 0)
      + SamplerCache.creations rest
          ((SamplerCache.get_or_insert st.1 info st.2).2.1,
            (SamplerCache.get_or_insert st.1 info st.2).2.2) d

/-- C7: `get_or_insert` is idempotent — an immediately repeated call with
the same descriptor returns the same sampler handle and leaves the cache
and the factory untouched; across any call sequence the factory creates
at most one sampler per distinct descriptor (zero when it is already
cached, so creation is lazy, on first use); and a cached entry is never
removed — after any call sequence the descriptor still maps to the same
handle, which every later `get_or_insert` with that descriptor returns. -/
theorem sampler_cache_get_or_insert_dedup :
    (∀ (m : List (SamplerInfo × Handle)) (n : Nat) (info : SamplerInfo),
      SamplerCache.get_or_insert (SamplerCache.get_or_insert m info n).2.1
          info (SamplerCache.get_or_insert m info n).2.2
        = ((SamplerCache.get_or_insert m info n).1,
            (SamplerCache.get_or_insert m info n).2.1,
            (SamplerCache.get_or_insert m info n).2.2))
    ∧ (∀ (reqs : List SamplerInfo) (m : List (SamplerInfo × Handle))
        (n : Nat) (d : SamplerInfo),
      SamplerCache.creations reqs (m, n) d
        ≤ if (alistFind m d).isSome then 0 else 1)
    ∧ (∀ (reqs : List SamplerInfo) (m : List (SamplerInfo × Handle))
        (n : Nat) (d : SamplerInfo) (v : Handle),
      alistFind m d = some v →
      alistFind (SamplerCache.run reqs (m, n)).1 d = some v
        ∧ (SamplerCache.get_or_insert (SamplerCache.run reqs (m, n)).1 d
            (SamplerCache.run reqs (m, n)).2)
          = (v, (SamplerCache.run reqs (m, n)).1,
              (SamplerCache.run reqs (m, n)).2)) := by
  have hpreserve : ∀ (reqs : List SamplerInfo)
      (m : List (SamplerInfo × Handle)) (n : Nat) (d : SamplerInfo)
      (v : Handle), alistFind m d = some v →
      alistFind (SamplerCache.run reqs (m, n)).1 d = some v := by
    intro reqs
    induction reqs with
    | nil => intro m n d v h; exact h
    | cons info rest ih =>
      intro m n d v h
      simp only [SamplerCache.run]
      exact ih _ _ d v
        (getOrCreate_preserves m info d (fun x => (x, x + 1)) n v h)
  refine ⟨?_, ?_, ?_⟩
  · intro m n info
    exact getOrCreate_hit _ info (fun x => (x, x + 1)) _ _
      (getOrCreate_find_self m info (fun x => (x, x + 1)) n)
  · intro reqs
    induction reqs with
    | nil =>
      intro m n d
      simp only [SamplerCache.creations]
      exact Nat.zero_le _
    | cons info rest ih =>
      intro m n d
      simp only [SamplerCache.creations]
      by_cases hd : info = d
      · subst hd
        cases hfind : alistFind m info with
        | some v =>
          rw [if_neg (by simp)]
          have hstep : SamplerCache.get_or_insert m info n = (v, m, n) :=
            getOrCreate_hit m info (fun x => (x, x + 1)) n v hfind
          rw [hstep]
          have hrest := ih m n info
          rw [hfind] at hrest
          simp at hrest ⊢
          omega
        | none =>
          rw [if_pos ⟨rfl, rfl⟩]
          have hfound : alistFind (SamplerCache.get_or_insert m info n).2.1
              info = some (SamplerCache.get_or_insert m info n).1 :=
            getOrCreate_find_self m info (fun x => (x, x + 1)) n
          have hrest := ih (SamplerCache.get_or_insert m info n).2.1
            (SamplerCache.get_or_insert m info n).2.2 info
          rw [hfound] at hrest
          simp at hrest ⊢
          omega
      · rw [if_neg (by simp [hd])]
        have hrest := ih (SamplerCache.get_or_insert m info n).2.1
          (SamplerCache.get_or_insert m info n).2.2 d
        have hother : alistFind (SamplerCache.get_or_insert m info n).2.1 d
            = alistFind m d :=
          alistFind_getOrCreate_other m info d (fun x => (x, x + 1)) n hd
        rw [hother] at hrest
        simpa using hrest
  · intro reqs m n d v h
    have hfound := hpreserve reqs m n d v h
    exact ⟨hfound,
      getOrCreate_hit _ d (fun x => (x, x + 1)) _ v hfound⟩

/-- Concrete instance of C7's theorem: after an unrelated request, the
cached bilinear/clamp descriptor still maps to handle 0 and a further
`get_or_insert` returns exactly that handle without touching the cache. -/
theorem sampler_cache_get_or_insert_dedup_witness :
    alistFind (SamplerCache.run [SamplerInfo.new .scale .tile]
        ([(SamplerInfo.new .bilinear .clamp, 0)], 1)).1
        (SamplerInfo.new .bilinear .clamp) = some 0
    ∧ (SamplerCache.get_or_insert
          (SamplerCache.run [SamplerInfo.new .scale .tile]
            ([(SamplerInfo.new .bilinear .clamp, 0)], 1)).1
          (SamplerInfo.new .bilinear .clamp)
          (SamplerCache.run [SamplerInfo.new .scale .tile]
            ([(SamplerInfo.new .bilinear .clamp, 0)], 1)).2)
      = (0, (SamplerCache.run [SamplerInfo.new .scale .tile]
            ([(SamplerInfo.new .bilinear .clamp, 0)], 1)).1,
          (SamplerCache.run [SamplerInfo.new .scale .tile]
            ([(SamplerInfo.new .bilinear .clamp, 0)], 1)).2) :=
  sampler_cache_get_or_insert_dedup.2.2 [SamplerInfo.new .scale .tile]
    [(SamplerInfo.new .bilinear .clamp, 0)] 1
    (SamplerInfo.new .bilinear .clamp) 0 rfl

/-- A sequence of `BindGroupBuilder::create` calls, threading the cache
and the device counter. -/
def BindGroupCache.runCreates : List BindGroupBuilder →
    BindGroupCache × Nat → BindGroupCache × Nat
  | [], st => st
  | b :: rest, st =>
    BindGroupCache.runCreates rest
      ((b.create st.1 st.2).2.1, (b.create st.1 st.2).2.2)

/-- Number of `device.create_bind_group` invocations for the key `k`
during a sequence of `create` calls (the device is invoked exactly when
the key misses the group cache). -/
def BindGroupCache.groupCreations : List BindGroupBuilder →
    BindGroupCache × Nat → List BindGroupEntryKey → Nat
  | [], _, _ => 0
  | b :: rest, st, k =>
    (if b.key = k ∧ alistFind st.1.groups b.key = none then 1 else 0)
      + BindGroupCache.groupCreations rest
          ((b.create st.1 st.2).2.1, (b.create st.1 st.2).2.2) k

/-- Number of `device.create_bind_group_layout` invocations for the
layout key `lk` during a sequence of `create` calls. -/
def BindGroupCache.layoutCreations : List BindGroupBuilder →
    BindGroupCache × Nat → List BindGroupLayoutEntry × Nat → Nat
  | [], _, _ => 0
  | b :: rest, st, lk =>
    (if (b.layout.entries, b.layout.seed) = lk
        ∧ alistFind st.1.layouts (b.layout.entries, b.layout.seed) = none
      then 1 else 0)
      + BindGroupCache.layoutCreations rest
          ((b.create st.1 st.2).2.1, (b.create st.1 st.2).2.2) lk

theorem bgb_create_groups (b : BindGroupBuilder) (c : BindGroupCache)
    (dev : Nat) :
    (b.create c dev).2.1.groups
      = (getOrCreate c.groups b.key (fun n => (n, n + 1))
          (b.layout.create c dev).2.2).2.1 := rfl

theorem bgb_create_layouts (b : BindGroupBuilder) (c : BindGroupCache)
    (dev : Nat) :
    (b.create c dev).2.1.layouts
      = (getOrCreate c.layouts (b.layout.entries, b.layout.seed)
          (fun n => (n, n + 1)) dev).2.1 := rfl

theorem bgb_create_hit (b : BindGroupBuilder) (c : BindGroupCache)
    (dev : Nat) (lv gv : Handle)
    (hl : alistFind c.layouts (b.layout.entries, b.layout.seed) = some lv)
    (hg : alistFind c.groups b.key = some gv) :
    b.create c dev = ((gv, lv), c, dev) := by
  have h1 := getOrCreate_hit c.layouts (b.layout.entries, b.layout.seed)
    (fun n => (n, n + 1)) dev lv hl
  have h2 := getOrCreate_hit c.groups b.key (fun n => (n, n + 1)) dev gv hg
  unfold BindGroupBuilder.create BindGroupLayoutBuilder.create
  simp only [h1]
  simp only [h2]

/-- C10: bind-group creation is deduplicated exactly like the sampler
cache — a second `create` whose builder accumulated the same key
sequence, layout entries and seed returns the same cached group and
layout and leaves the cache and the device counter untouched; across any
call sequence the device creates at most one bind group per distinct key
and at most one layout per distinct layout key (zero when already
cached); and neither cache ever evicts an entry. -/
theorem bind_group_cache_dedup :
    (∀ (b1 b2 : BindGroupBuilder) (c : BindGroupCache) (dev : Nat),
      b1.key = b2.key → b1.layout.entries = b2.layout.entries →
      b1.layout.seed = b2.layout.seed →
      b2.create (b1.create c dev).2.1 (b1.create c dev).2.2
        = ((b1.create c dev).1, (b1.create c dev).2.1,
            (b1.create c dev).2.2))
    ∧ (∀ (reqs : List BindGroupBuilder) (c : BindGroupCache) (dev : Nat)
        (k : List BindGroupEntryKey),
      BindGroupCache.groupCreations reqs (c, dev) k
        ≤ if (alistFind c.groups k).isSome then 0 else 1)
    ∧ (∀ (reqs : List BindGroupBuilder) (c : BindGroupCache) (dev : Nat)
        (lk : List BindGroupLayoutEntry × Nat),
      BindGroupCache.layoutCreations reqs (c, dev) lk
        ≤ if (alistFind c.layouts lk).isSome then 0 else 1)
    ∧ (∀ (reqs : List BindGroupBuilder) (c : BindGroupCache) (dev : Nat)
        (k : List BindGroupEntryKey) (v : Handle),
      alistFind c.groups k = some v →
      alistFind (BindGroupCache.runCreates reqs (c, dev)).1.groups k = some v)
    ∧ (∀ (reqs : List BindGroupBuilder) (c : BindGroupCache) (dev : Nat)
        (lk : List BindGroupLayoutEntry × Nat) (v : Handle),
      alistFind c.layouts lk = some v →
      alistFind (BindGroupCache.runCreates reqs (c, dev)).1.layouts lk
        = some v) := by
  refine ⟨?_, ?_, ?_, ?_, ?_⟩
  · intro b1 b2 c dev hk he hs
    have hl1 : alistFind (b1.create c dev).2.1.layouts
        (b1.layout.entries, b1.layout.seed) = some (b1.create c dev).1.2 :=
      getOrCreate_find_self c.layouts (b1.layout.entries, b1.layout.seed)
        (fun n => (n, n + 1)) dev
    have hg1 : alistFind (b1.create c dev).2.1.groups b1.key
        = some (b1.create c dev).1.1 :=
      getOrCreate_find_self c.groups b1.key (fun n => (n, n + 1))
        (b1.layout.create c dev).2.2
    rw [he, hs] at hl1
    rw [hk] at hg1
    exact bgb_create_hit b2 (b1.create c dev).2.1 (b1.create c dev).2.2
      (b1.create c dev).1.2 (b1.create c dev).1.1 hl1 hg1
  · intro reqs
    induction reqs with
    | nil =>
      intro c dev k
      simp only [BindGroupCache.groupCreations]
      exact Nat.zero_le _
    | cons b rest ih =>
      intro c dev k
      simp only [BindGroupCache.groupCreations]
      by_cases hk : b.key = k
      · subst hk
        cases hfind : alistFind c.groups b.key with
        | some v =>
          rw [if_neg (by simp)]
          have hrest := ih (b.create c dev).2.1 (b.create c dev).2.2 b.key
          have hafter : alistFind (b.create c dev).2.1.groups b.key
              = some v := by
            rw [bgb_create_groups]
            exact getOrCreate_preserves c.groups b.key b.key _ _ v hfind
          rw [hafter] at hrest
          simp at hrest ⊢
          omega
        | none =>
          rw [if_pos ⟨rfl, rfl⟩]
          have hrest := ih (b.create c dev).2.1 (b.create c dev).2.2 b.key
          have hafter : alistFind (b.create c dev).2.1.groups b.key
              = some (getOrCreate c.groups b.key (fun n => (n, n + 1))
                  (b.layout.create c dev).2.2).1 := by
            rw [bgb_create_groups]
            exact getOrCreate_find_self c.groups b.key _ _
          rw [hafter] at hrest
          simp at hrest ⊢
          omega
      · rw [if_neg (by simp [hk])]
        have hrest := ih (b.create c dev).2.1 (b.create c dev).2.2 k
        have hafter : alistFind (b.create c dev).2.1.groups k
            = alistFind c.groups k := by
          rw [bgb_create_groups]
          exact alistFind_getOrCreate_other c.groups b.key k _ _ hk
        rw [hafter] at hrest
        simpa using hrest
  · intro reqs
    induction reqs with
    | nil =>
      intro c dev lk
      simp only [BindGroupCache.layoutCreations]
      exact Nat.zero_le _
    | cons b rest ih =>
      intro c dev lk
      simp only [BindGroupCache.layoutCreations]
      by_cases hk : (b.layout.entries, b.layout.seed) = lk
      · subst hk
        cases hfind : alistFind c.layouts (b.layout.entries, b.layout.seed) with
        | some v =>
          rw [if_neg (by simp)]
          have hrest := ih (b.create c dev).2.1 (b.create c dev).2.2
            (b.layout.entries, b.layout.seed)
          have hafter : alistFind (b.create c dev).2.1.layouts
              (b.layout.entries, b.layout.seed) = some v := by
            rw [bgb_create_layouts]
            exact getOrCreate_preserves c.layouts _ _ _ _ v hfind
          rw [hafter] at hrest
          simp at hrest ⊢
          omega
        | none =>
          rw [if_pos ⟨rfl, rfl⟩]
          have hrest := ih (b.create c dev).2.1 (b.create c dev).2.2
            (b.layout.entries, b.layout.seed)
          have hafter : alistFind (b.create c dev).2.1.layouts
              (b.layout.entries, b.layout.seed)
              = some (getOrCreate c.layouts
                  (b.layout.entries, b.layout.seed) (fun n => (n, n + 1))
                  dev).1 := by
            rw [bgb_create_layouts]
            exact getOrCreate_find_self c.layouts _ _ _
          rw [hafter] at hrest
          simp at hrest ⊢
          omega
      · rw [if_neg (by simp [hk])]
        have hrest := ih (b.create c dev).2.1 (b.create c dev).2.2 lk
        have hafter : alistFind (b.create c dev).2.1.layouts lk
            = alistFind c.layouts lk := by
          rw [bgb_create_layouts]
          exact alistFind_getOrCreate_other c.layouts _ lk _ _ hk
        rw [hafter] at hrest
        simpa using hrest
  · intro reqs
    induction reqs with
    | nil => intro c dev k v h; exact h
    | cons b rest ih =>
      intro c dev k v h
      simp only [BindGroupCache.runCreates]
      refine ih (b.create c dev).2.1 (b.create c dev).2.2 k v ?_
      rw [bgb_create_groups]
      exact getOrCreate_preserves c.groups b.key k _ _ v h
  · intro reqs
    induction reqs with
    | nil => intro c dev lk v h; exact h
    | cons b rest ih =>
      intro c dev lk v h
      simp only [BindGroupCache.runCreates]
      refine ih (b.create c dev).2.1 (b.create c dev).2.2 lk v ?_
      rw [bgb_create_layouts]
      exact getOrCreate_preserves c.layouts _ lk _ _ v h

/-- A builder accumulating one uniform buffer and one texture view, as a
pipeline would. -/
def sampleBuilder : BindGroupBuilder :=
  (BindGroupBuilder.new.buffer 7 0 1 .uniform false none).image 3 1

/-- Concrete instance of C10's theorem: re-running `sampleBuilder`'s
`create` on the cache the first run produced returns the same group and
layout handles and changes neither the cache nor the device counter. -/
theorem bind_group_cache_dedup_witness :
    sampleBuilder.create (sampleBuilder.create BindGroupCache.new 0).2.1
        (sampleBuilder.create BindGroupCache.new 0).2.2
      = ((sampleBuilder.create BindGroupCache.new 0).1,
          (sampleBuilder.create BindGroupCache.new 0).2.1,
          (sampleBuilder.create BindGroupCache.new 0).2.2) :=
  bind_group_cache_dedup.1 sampleBuilder sampleBuilder BindGroupCache.new 0
    rfl rfl rfl

theorem rowChunks_count (r h : Nat) (d : List Nat) :
    (rowChunks r h d).length = h := by
  induction h generalizing d with
  | zero => rfl
  | succ k ih => simp [rowChunks, ih]

theorem rowChunks_row_length (r h : Nat) (d : List Nat)
    (hd : d.length = r * h) :
    ∀ row ∈ rowChunks r h d, row.length = r := by
  induction h generalizing d with
  | zero => intro row hrow; simp [rowChunks] at hrow
  | succ k ih =>
    intro row hrow
    simp only [rowChunks, List.mem_cons] at hrow
    rcases hrow with hrow | hrow
    · subst hrow
      rw [List.length_take]
      rw [Nat.mul_succ] at hd
      omega
    · refine ih (d.drop r) ?_ row hrow
      rw [List.length_drop, hd, Nat.mul_succ]
      omega

theorem flatten_rowChunks (r h : Nat) (d : List Nat)
    (hd : d.length = r * h) : (rowChunks r h d).flatten = d := by
  induction h generalizing d with
  | zero =>
    simp only [rowChunks, List.flatten_nil]
    symm
    rw [← List.length_eq_zero]
    omega
  | succ k ih =>
    simp only [rowChunks, List.flatten_cons]
    rw [ih (d.drop r) (by rw [List.length_drop, hd, Nat.mul_succ]; omega)]
    exact List.take_append_drop r d

theorem rowChunks_flatten (r : Nat) (rows : List (List Nat))
    (hall : ∀ row ∈ rows, row.length = r) :
    rowChunks r rows.length rows.flatten = rows := by
  induction rows with
  | nil => rfl
  | cons row rest ih =>
    simp only [List.length_cons, List.flatten_cons, rowChunks]
    have hrow : row.length = r := hall row (by simp)
    rw [List.take_left' hrow, List.drop_left' hrow,
      ih (fun q hq => hall q (by simp [hq]))]

/-- C8: `Canvas::to_rgba8` returns exactly the read-back pixel data with
its rows vertically reversed, and `Canvas::encode` hands exactly that
flipped, row-major data (with the canvas dimensions) to the PNG encoder;
the pixel rows of the extracted buffer are precisely the original rows
in reverse order, and the flip is an involution — so applying it twice
would undo it, and it is applied exactly once on both paths. -/
theorem canvas_extraction_flips_once (c : Wgpu.Canvas) (data : List Nat)
    (hlen : data.length = c.image.width * 4 * c.image.height) :
    Wgpu.Canvas.to_rgba8 c (.ok data)
      = .ok ((rowChunks (c.image.width * 4) c.image.height
          data).reverse.flatten)
    ∧ Wgpu.Canvas.encode c (.ok data)
      = .ok { data := (rowChunks (c.image.width * 4) c.image.height
                data).reverse.flatten,
              width := c.image.width, height := c.image.height }
    ∧ rowChunks (c.image.width * 4) c.image.height
        (Wgpu.flip_pixel_data data c.image.width c.image.height)
      = (rowChunks (c.image.width * 4) c.image.height data).reverse
    ∧ Wgpu.flip_pixel_data
        (Wgpu.flip_pixel_data data c.image.width c.image.height)
        c.image.width c.image.height = data := by
  have hrows : ∀ row ∈ (rowChunks (c.image.width * 4) c.image.height
      data).reverse, row.length = c.image.width * 4 := by
    intro row hrow
    exact rowChunks_row_length _ _ data hlen row (List.mem_reverse.mp hrow)
  have hcnt : (rowChunks (c.image.width * 4) c.image.height
      data).reverse.length = c.image.height := by
    rw [List.length_reverse, rowChunks_count]
  have hchunk : rowChunks (c.image.width * 4) c.image.height
      ((rowChunks (c.image.width * 4) c.image.height
        data).reverse.flatten)
      = (rowChunks (c.image.width * 4) c.image.height data).reverse := by
    have h := rowChunks_flatten (c.image.width * 4)
      (rowChunks (c.image.width * 4) c.image.height data).reverse hrows
    rw [hcnt] at h
    exact h
  refine ⟨rfl, rfl, hchunk, ?_⟩
  show ((rowChunks (c.image.width * 4) c.image.height
    ((rowChunks (c.image.width * 4) c.image.height
      data).reverse.flatten)).reverse).flatten = data
  rw [hchunk, List.reverse_reverse]
  exact flatten_rowChunks _ _ data hlen

/-- Concrete instance of C8's theorem on a 1x2 canvas whose two pixel
rows are distinct (so the row reversal is observable). -/
theorem canvas_extraction_flips_once_witness :
    Wgpu.Canvas.to_rgba8 ⟨⟨1, 2⟩⟩ (.ok [1, 2, 3, 4, 5, 6, 7, 8])
      = .ok ((rowChunks (1 * 4) 2 [1, 2, 3, 4, 5, 6, 7, 8]).reverse.flatten)
    ∧ Wgpu.flip_pixel_data
        (Wgpu.flip_pixel_data [1, 2, 3, 4, 5, 6, 7, 8] 1 2) 1 2
      = [1, 2, 3, 4, 5, 6, 7, 8] :=
  ⟨(canvas_extraction_flips_once ⟨⟨1, 2⟩⟩ [1, 2, 3, 4, 5, 6, 7, 8]
      (by decide)).1,
    (canvas_extraction_flips_once ⟨⟨1, 2⟩⟩ [1, 2, 3, 4, 5, 6, 7, 8]
      (by decide)).2.2.2⟩

/-- A value-form (non-matrix) draw param. -/
def sampleValuesParam : Wgpu.DrawParam :=
  { src := ⟨0, 0, 1, 1⟩
    color := ⟨1, 1, 1, 1⟩
    trans := .values (0, 0) 0 (1, 1) (0, 0) }

/-- A 2x2 canvas. -/
def sampleCanvasW : Wgpu.Canvas :=
  ⟨⟨2, 2⟩⟩

/-- C9 counterexample: drawing a canvas with a value-form (non-matrix)
`DrawParam` does not panic — `Canvas::draw` first replaces the transform
by a matrix via `param.transform(..)`, so `flip_draw_param_vertical`
takes its matrix arm and the draw proceeds, contrary to the claim that
such a call aborts. -/
theorem canvas_draw_non_matrix_no_panic :
    (Wgpu.Canvas.draw sampleCanvasW sampleValuesParam).isSome = true := rfl

/-- C9 amended: `flip_draw_param_vertical` itself panics exactly on
non-matrix transforms — it aborts for every value-form param and the
panic branch is unreachable for every matrix-form param — and
`Canvas::draw` never reaches the panic for any param, because it always
passes a matrix-form param (built by `param.transform(..)`) to the
flip. -/
theorem flip_draw_param_vertical_panic_behavior :
    (∀ p : Wgpu.DrawParam, p.trans.isMatrixForm = false →
      Wgpu.flip_draw_param_vertical p = none)
    ∧ (∀ p : Wgpu.DrawParam, p.trans.isMatrixForm = true →
      (Wgpu.flip_draw_param_vertical p).isSome = true)
    ∧ (∀ (c : Wgpu.Canvas) (p : Wgpu.DrawParam),
      (Wgpu.Canvas.draw c p).isSome = true) := by
  refine ⟨?_, ?_, ?_⟩
  · intro p hp
    unfold Wgpu.flip_draw_param_vertical
    cases htr : p.trans with
    | matrix m =>
      rw [htr] at hp
      simp [Wgpu.Transform.isMatrixForm] at hp
    | values a b e d => rfl
  · intro p hp
    unfold Wgpu.flip_draw_param_vertical
    cases htr : p.trans with
    | matrix m => rfl
    | values a b e d =>
      rw [htr] at hp
      simp [Wgpu.Transform.isMatrixForm] at hp
  · intro c p
    rfl

/-- Concrete instance of C9's amended theorem: the flip panics on the
value-form param when called directly, yet `Canvas::draw` on the very
same param returns normally. -/
theorem flip_draw_param_vertical_panic_behavior_witness :
    Wgpu.flip_draw_param_vertical sampleValuesParam = none
    ∧ (Wgpu.Canvas.draw sampleCanvasW sampleValuesParam).isSome = true :=
  ⟨flip_draw_param_vertical_panic_behavior.1 sampleValuesParam rfl,
    flip_draw_param_vertical_panic_behavior.2.2 sampleCanvasW
      sampleValuesParam⟩

end Ggez
